import Mathlib

/-!
Shallow embedding of the interactive raster mask editor implemented in
`src/MaskingCanvas.tsx`.  Numeric values (screen coordinates, scale,
offsets, opacities) are modelled as rationals; pixel buffers as lists of
RGBA pixels (premultiplied-alpha, the canvas-internal representation).
Each React event handler of the component becomes a pure state
transformer on `EditorState`.  The 2D-canvas rasterizer (the geometry of
`ctx.stroke()`) is platform code, not repository code; it is modelled by
an arbitrary per-pixel coverage function `cov`, while the compositing
configured by `drawLine` (composite operation and stroke style, lines
121–129 of the source) is modelled exactly.
-/

namespace MaskingCanvas

/-- An RGBA pixel with premultiplied alpha, channels as rationals. -/
structure Pixel where
  r : ℚ
  g : ℚ
  b : ℚ
  a : ℚ
deriving DecidableEq, Repr

/-- The fully transparent pixel, the value `clearRect` / a fresh canvas holds. -/
def Pixel.clearPx : Pixel := ⟨0, 0, 0, 0⟩

/-- Viewport transform: image point `p` maps to screen `p * scale + offset`. -/
structure Transform where
  scale : ℚ
  offsetX : ℚ
  offsetY : ℚ
deriving DecidableEq, Repr

def MIN_SCALE : ℚ := 1/5

def MAX_SCALE : ℚ := 5

/-- Line 181 of the source: the fixed wheel zoom factor 1.1. -/
def zoomFactor : ℚ := 11/10

/-- Model of `zoomAt` of the spec's ViewportTransform, translated from the body of
`handleWheel` (source lines 182–193) with the scale factor generalized to a
parameter `f` (the source instantiates `f` with `zoomFactor` or its
reciprocal according to the wheel direction).  The source *rejects* a
candidate scale outside `[MIN_SCALE, MAX_SCALE]` — it returns without
touching the transform — rather than clamping it. -/
def zoomAt (t : Transform) (px py f : ℚ) : Transform :=
  let newScale := t.scale * f
  if newScale < MIN_SCALE ∨ newScale > MAX_SCALE then t
  else
    { scale := newScale
      offsetX := px - (px - t.offsetX) * (newScale / t.scale)
      offsetY := py - (py - t.offsetY) * (newScale / t.scale) }

/-- Clamp as the spec's words describe it: `clamp(x, lo, hi)`. -/
def clampSpec (x lo hi : ℚ) : ℚ := max lo (min x hi)

/-- Model of `zoomAt` as the spec's words describe it (for comparison with the
source-derived `zoomAt`): clamp the candidate scale into range, no-op only
when the clamped scale equals the current scale. -/
def zoomAtSpec (t : Transform) (px py f : ℚ) : Transform :=
  let newScale := clampSpec (t.scale * f) MIN_SCALE MAX_SCALE
  if newScale = t.scale then t
  else
    { scale := newScale
      offsetX := px - (px - t.offsetX) * (newScale / t.scale)
      offsetY := py - (py - t.offsetY) * (newScale / t.scale) }

/-- The arguments `drawLine` (source lines 116–137) configures on the 2D
context before calling `stroke()`: join/cap shape, line width
`brushSize / scale`, composite operation and stroke style selected by
`isErasing`, and the segment endpoints in image space. -/
structure StrokeCall where
  shapeCircle : Bool
  lineWidth : ℚ
  isErasing : Bool
  opacity : ℚ
  x1 : ℚ
  y1 : ℚ
  x2 : ℚ
  y2 : ℚ
deriving DecidableEq, Repr

/-- The premultiplied source pixel contributed by the stroke at a pixel the
rasterizer covers with fractional coverage `cov`: the stroke style is
`rgba(0,0,0,1)` when erasing (line 129: full alpha regardless of the
configured opacity) and the fixed pink at `brushOpacity` otherwise. -/
def srcPixel (isErasing : Bool) (opacity cov : ℚ) : Pixel :=
  if isErasing then ⟨0, 0, 0, cov⟩
  else ⟨236/255 * opacity * cov, 72/255 * opacity * cov, 153/255 * opacity * cov, opacity * cov⟩

/-- Porter–Duff source-over on premultiplied pixels (canvas default). -/
def sourceOver (s d : Pixel) : Pixel :=
  ⟨s.r + d.r * (1 - s.a), s.g + d.g * (1 - s.a), s.b + d.b * (1 - s.a), s.a + d.a * (1 - s.a)⟩

/-- Porter–Duff destination-out on premultiplied pixels
(`globalCompositeOperation = 'destination-out'`, used when erasing). -/
def destOut (s d : Pixel) : Pixel :=
  ⟨d.r * (1 - s.a), d.g * (1 - s.a), d.b * (1 - s.a), d.a * (1 - s.a)⟩

/-- The per-pixel effect of one stroke on a destination pixel covered with
fraction `cov`, exactly as `drawLine` configures the context:
destination-out with a fully opaque source when erasing, source-over at
`brushOpacity` otherwise. -/
def compositePixel (isErasing : Bool) (opacity cov : ℚ) (d : Pixel) : Pixel :=
  if isErasing then destOut (srcPixel true opacity cov) d
  else sourceOver (srcPixel false opacity cov) d

/-- A rasterization geometry: for a stroke call and a pixel index, the
fractional coverage the platform's `stroke()` assigns.  The geometry lives
in the browser's 2D canvas, outside the repository, so it is kept
abstract; theorems quantify over it. -/
def Coverage : Type := StrokeCall → ℕ → ℚ

/-- The effect of `ctx.stroke()` on the canvas pixel data: every pixel is
composited with the stroke's source at its coverage.  Never changes the
number of pixels (a stroke cannot resize a canvas). -/
def strokeData (cov : Coverage) (args : StrokeCall) (data : List Pixel) : List Pixel :=
  List.mapIdx (fun i px => compositePixel args.isErasing args.opacity (cov args i) px) data

/-- Blank (fully transparent) pixel data of a `w × h` canvas, the content a
canvas holds after `canvas.width/height` are assigned or after
`clearRect(0, 0, width, height)`. -/
def blankData (w h : ℕ) : List Pixel := List.replicate (w * h) Pixel.clearPx

/-- The component's mutable state: the `useRef` flags and history, the
`useState` brush/transform values, the canvas bitmap, and the container's
bounding rectangle (host geometry, never written by the component). -/
structure EditorState where
  isDrawing : Bool
  isPanning : Bool
  lastPoint : Option (ℚ × ℚ)
  histStack : List (List Pixel)
  histIndex : ℤ
  canvasW : ℕ
  canvasH : ℕ
  canvasData : List Pixel
  transform : Transform
  brushSize : ℚ
  isErasing : Bool
  brushShapeCircle : Bool
  brushOpacity : ℚ
  rectLeft : ℚ
  rectTop : ℚ
  containerW : ℚ
  containerH : ℚ
deriving DecidableEq, Repr

/-- Model of `canUndo` as computed by `updateHistoryControls` (lines 35–41). -/
def canUndo (s : EditorState) : Bool := s.histIndex > 0

/-- Model of `canRedo` as computed by `updateHistoryControls` (lines 35–41). -/
def canRedo (s : EditorState) : Bool := s.histIndex < (s.histStack.length : ℤ) - 1

/-- Model of `saveHistory` (lines 43–60): drop the entries after the cursor, append
the current canvas bitmap (`getImageData` hands back a fresh copy), set the
cursor to the new last index. -/
def saveHistory (s : EditorState) : EditorState :=
  let newStack := s.histStack.take (s.histIndex + 1).toNat ++ [s.canvasData]
  { s with histStack := newStack, histIndex := (newStack.length : ℤ) - 1 }

/-- Model of `getTransformedPoint` (lines 108–114): screen (client) coordinates to
image space through the container rect and the current transform. -/
def getTransformedPoint (s : EditorState) (cx cy : ℚ) : ℚ × ℚ :=
  ((cx - s.rectLeft - s.transform.offsetX) / s.transform.scale,
   (cy - s.rectTop - s.transform.offsetY) / s.transform.scale)

/-- Model of `drawLine` (lines 116–137): one stroked segment on the canvas with the
current brush configuration; only the pixel data changes. -/
def drawLine (cov : Coverage) (s : EditorState) (x1 y1 x2 y2 : ℚ) : EditorState :=
  let args : StrokeCall :=
    { shapeCircle := s.brushShapeCircle
      lineWidth := s.brushSize / s.transform.scale
      isErasing := s.isErasing
      opacity := s.brushOpacity
      x1 := x1, y1 := y1, x2 := x2, y2 := y2 }
  { s with canvasData := strokeData cov args s.canvasData }

/-- Model of `handlePointerDown` (lines 139–152): non-primary buttons are ignored;
with the pan flag set only the anchor screen point is recorded; otherwise
the drawing flag is set, the image-space point recorded, and an initial
dot (zero-length segment) painted. -/
def handlePointerDown (cov : Coverage) (s : EditorState) (cx cy : ℚ) (button : ℕ) :
    EditorState :=
  if button ≠ 0 then s
  else if s.isPanning then { s with lastPoint := some (cx, cy) }
  else
    let p := getTransformedPoint s cx cy
    let s' := { s with isDrawing := true, lastPoint := some p }
    drawLine cov s' p.1 p.2 p.1 p.2

/-- Model of `handlePointerMove` (lines 154–168): pan takes priority when the pan
flag is set and an anchor exists; otherwise, when drawing, paint a segment
from the last recorded point and advance it. -/
def handlePointerMove (cov : Coverage) (s : EditorState) (cx cy : ℚ) : EditorState :=
  match s.isPanning, s.lastPoint with
  | true, some lp =>
      { s with
        transform := { s.transform with
          offsetX := s.transform.offsetX + (cx - lp.1)
          offsetY := s.transform.offsetY + (cy - lp.2) }
        lastPoint := some (cx, cy) }
  | _, _ =>
      if s.isDrawing then
        match s.lastPoint with
        | some lp =>
            let cur := getTransformedPoint s cx cy
            { drawLine cov s lp.1 lp.2 cur.1 cur.2 with lastPoint := some cur }
        | none => s
      else s

/-- Model of `handlePointerUp` (lines 170–176, also bound to pointer-leave): commit
a history snapshot when a stroke was in progress, then reset the drawing
flag and the last point. -/
def handlePointerUp (s : EditorState) : EditorState :=
  let s' := if s.isDrawing then saveHistory s else s
  { s' with isDrawing := false, lastPoint := none }

/-- Model of `handleWheel` (lines 178–194): pick the candidate scale from the wheel
direction, return untouched when it falls outside `[MIN_SCALE, MAX_SCALE]`,
otherwise apply the anchored-zoom offset update at the mouse position. -/
def handleWheel (s : EditorState) (cx cy deltaY : ℚ) : EditorState :=
  let newScale := if deltaY < 0 then s.transform.scale * zoomFactor
                  else s.transform.scale / zoomFactor
  if newScale < MIN_SCALE ∨ newScale > MAX_SCALE then s
  else
    let mouseX := cx - s.rectLeft
    let mouseY := cy - s.rectTop
    { s with transform :=
        { scale := newScale
          offsetX := mouseX - (mouseX - s.transform.offsetX) * (newScale / s.transform.scale)
          offsetY := mouseY - (mouseY - s.transform.offsetY) * (newScale / s.transform.scale) } }

/-- Model of `handleUndo` (lines 234–246): when the cursor is positive, move it back
one entry and replace the canvas bitmap with that entry (`clearRect`
followed by `putImageData` of the full-canvas snapshot). -/
def handleUndo (s : EditorState) : EditorState :=
  if s.histIndex > 0 then
    let ni := s.histIndex - 1
    { s with histIndex := ni, canvasData := s.histStack.getD ni.toNat s.canvasData }
  else s

/-- Model of `handleRedo` (lines 248–260): symmetric to `handleUndo` at the other
boundary. -/
def handleRedo (s : EditorState) : EditorState :=
  if s.histIndex < (s.histStack.length : ℤ) - 1 then
    let ni := s.histIndex + 1
    { s with histIndex := ni, canvasData := s.histStack.getD ni.toNat s.canvasData }
  else s

/-- Model of `handleKeyDown` (lines 197–209): space sets the pan flag when it is not
already set; Ctrl/Cmd+Z and Ctrl/Cmd+Y invoke undo and redo.  The handler
consults neither the drawing flag nor the pan flag before undo/redo. -/
def handleKeyDown (s : EditorState) (key : String) (ctrl : Bool) : EditorState :=
  if key = " " ∧ s.isPanning = false then { s with isPanning := true }
  else if ctrl ∧ key = "z" then handleUndo s
  else if ctrl ∧ key = "y" then handleRedo s
  else s

/-- Model of `handleKeyUp` (lines 210–216): releasing space clears the pan flag and
the recorded point. -/
def handleKeyUp (s : EditorState) (key : String) : EditorState :=
  if key = " " then { s with isPanning := false, lastPoint := none } else s

/-- Model of `handleClear` (lines 262–269): blank the whole canvas and commit a
snapshot, unconditionally. -/
def handleClear (s : EditorState) : EditorState :=
  saveHistory { s with canvasData := blankData s.canvasW s.canvasH }

/-- The result of `canvas.toDataURL('image/png')`: a lossless raster at the
canvas' pixel dimensions. -/
structure ExportedMask where
  width : ℕ
  height : ℕ
  data : List Pixel
deriving DecidableEq, Repr

/-- Model of `handleSave` (lines 271–275): export the canvas as a PNG whenever the
canvas element exists (in the component it exists for the component's whole
lifetime); there is no not-loaded check and no error path. -/
def handleSave (s : EditorState) : Option ExportedMask :=
  some ⟨s.canvasW, s.canvasH, s.canvasData⟩

/-- Model of `resetView` (lines 62–79): fit the image into the container without
upscaling past 100% and center it. -/
def resetView (s : EditorState) (natW natH : ℕ) : EditorState :=
  if natW = 0 ∨ natH = 0 then s
  else
    let initialScale := min (min (s.containerW / (natW : ℚ)) (s.containerH / (natH : ℚ))) 1
    { s with transform :=
        { scale := initialScale
          offsetX := (s.containerW - (natW : ℚ) * initialScale) / 2
          offsetY := (s.containerH - (natH : ℚ) * initialScale) / 2 } }

/-- The image-load effect (lines 81–106): size the canvas to the image's
natural dimensions (which blanks it), reset the history to the single
blank snapshot, and fit the view. -/
def loadImage (s : EditorState) (natW natH : ℕ) : EditorState :=
  resetView
    { s with
      canvasW := natW
      canvasH := natH
      canvasData := blankData natW natH
      histStack := [blankData natW natH]
      histIndex := 0 } natW natH

/-- The state of a freshly mounted component (the `useRef` / `useState`
initializers, lines 23–33), over host-supplied container geometry. -/
def initState (rectLeft rectTop containerW containerH : ℚ) : EditorState :=
  { isDrawing := false
    isPanning := false
    lastPoint := none
    histStack := []
    histIndex := -1
    canvasW := 300
    canvasH := 150
    canvasData := blankData 300 150
    transform := { scale := 1, offsetX := 0, offsetY := 0 }
    brushSize := 40
    isErasing := false
    brushShapeCircle := true
    brushOpacity := 1/2
    rectLeft := rectLeft
    rectTop := rectTop
    containerW := containerW
    containerH := containerH }

/-- The input events the component handles. -/
inductive Event where
  | pointerDown (cx cy : ℚ) (button : ℕ)
  | pointerMove (cx cy : ℚ)
  | pointerUp
  | wheel (cx cy deltaY : ℚ)
  | keyDown (key : String) (ctrl : Bool)
  | keyUp (key : String)
  | clearBtn
  | undoBtn
  | redoBtn
deriving DecidableEq, Repr

/-- Event dispatch: each event to its handler. -/
def step (cov : Coverage) (s : EditorState) : Event → EditorState
  | Event.pointerDown cx cy b => handlePointerDown cov s cx cy b
  | Event.pointerMove cx cy => handlePointerMove cov s cx cy
  | Event.pointerUp => handlePointerUp s
  | Event.wheel cx cy dy => handleWheel s cx cy dy
  | Event.keyDown k c => handleKeyDown s k c
  | Event.keyUp k => handleKeyUp s k
  | Event.clearBtn => handleClear s
  | Event.undoBtn => handleUndo s
  | Event.redoBtn => handleRedo s

/-- A run of events from a state. -/
def run (cov : Coverage) (s : EditorState) (evs : List Event) : EditorState :=
  evs.foldl (step cov) s

/-! ## Shared concrete instances for witnesses and counterexamples -/

/-- A rasterization geometry that covers every pixel fully. -/
def covOne : Coverage := fun _ _ => 1

/-! ## Claim C1 -/

/-- C1, counterexample: at scale 4.9 (inside `[MIN_SCALE, MAX_SCALE]`) a
zoom-in request with the source's factor 1.1 produces candidate scale 5.39;
the claim's clamp would set the scale to 5 (a change, hence not a no-op),
but `handleWheel`/`zoomAt` rejects the request outright and changes
nothing. -/
theorem c1_zoom_clamp_counterexample :
    zoomAt ⟨49/10, 0, 0⟩ 0 0 zoomFactor = ⟨49/10, 0, 0⟩ ∧
    handleWheel { initState 0 0 400 400 with transform := ⟨49/10, 0, 0⟩ } 0 0 (-1)
      = { initState 0 0 400 400 with transform := ⟨49/10, 0, 0⟩ } ∧
    clampSpec ((49/10) * zoomFactor) MIN_SCALE MAX_SCALE = 5 ∧
    (5 : ℚ) ≠ 49/10 ∧ MIN_SCALE ≤ (49/10 : ℚ) ∧ (49/10 : ℚ) ≤ MAX_SCALE := by
  refine ⟨?_, ?_, ?_, ?_, ?_, ?_⟩ <;>
    norm_num [zoomAt, handleWheel, clampSpec, zoomFactor, MIN_SCALE, MAX_SCALE]

/-- C1, amended: `zoomAt` applies the factor only when the candidate scale
`scale * f` already lies inside `[MIN_SCALE, MAX_SCALE]`; then the new
scale is `scale * f` (no clamping is performed) and the offset follows the
anchored-zoom formula.  When `scale * f` falls outside the range the whole
call is a no-op. -/
theorem c1_zoomAt_applies_or_rejects (t : Transform) (px py f : ℚ) :
    (MIN_SCALE ≤ t.scale * f ∧ t.scale * f ≤ MAX_SCALE →
      zoomAt t px py f =
        { scale := t.scale * f
          offsetX := px - (px - t.offsetX) * (t.scale * f / t.scale)
          offsetY := py - (py - t.offsetY) * (t.scale * f / t.scale) }) ∧
    (t.scale * f < MIN_SCALE ∨ t.scale * f > MAX_SCALE → zoomAt t px py f = t) := by
  constructor
  · rintro ⟨h1, h2⟩
    have hc : ¬(t.scale * f < MIN_SCALE ∨ t.scale * f > MAX_SCALE) := by
      simp only [not_or, not_lt]; exact ⟨h1, h2⟩
    simp only [zoomAt]; rw [if_neg hc]
  · intro h
    simp only [zoomAt]; rw [if_pos h]

/-- Witness for `c1_zoomAt_applies_or_rejects` at scale 1, factor 2,
anchor (2, 3). -/
theorem c1_zoomAt_witness :
    zoomAt ⟨1, 0, 0⟩ 2 3 2 =
      { scale := (1 : ℚ) * 2
        offsetX := 2 - (2 - 0) * ((1 : ℚ) * 2 / 1)
        offsetY := 3 - (3 - 0) * ((1 : ℚ) * 2 / 1) } :=
  (c1_zoomAt_applies_or_rejects ⟨1, 0, 0⟩ 2 3 2).1
    ⟨by norm_num [MIN_SCALE], by norm_num [MAX_SCALE]⟩

/-! ## Claim C9 -/

/-- C9: in exact rational arithmetic, `zoomAt(p, f)` followed by
`zoomAt(p, 1/f)` restores both the scale and the offset, provided the
current scale is in range (so the second call is accepted) and the
candidate scale of the first call is in range (so it is accepted too). -/
theorem c9_zoom_roundtrip (t : Transform) (px py f : ℚ)
    (h1 : MIN_SCALE ≤ t.scale) (h2 : t.scale ≤ MAX_SCALE)
    (h3 : MIN_SCALE ≤ t.scale * f) (h4 : t.scale * f ≤ MAX_SCALE) :
    zoomAt (zoomAt t px py f) px py (1 / f) = t := by
  obtain ⟨s, ox, oy⟩ := t
  simp only at h1 h2 h3 h4
  have hs : (0:ℚ) < s := lt_of_lt_of_le (by norm_num [MIN_SCALE]) h1
  have hsf : (0:ℚ) < s * f := lt_of_lt_of_le (by norm_num [MIN_SCALE]) h3
  have hf : (0:ℚ) < f := by nlinarith
  have hc1 : ¬(s * f < MIN_SCALE ∨ s * f > MAX_SCALE) := by
    simp only [not_or, not_lt]; exact ⟨h3, h4⟩
  have e1 : zoomAt ⟨s, ox, oy⟩ px py f
      = ⟨s * f, px - (px - ox) * (s * f / s), py - (py - oy) * (s * f / s)⟩ := by
    simp only [zoomAt]; rw [if_neg hc1]
  rw [e1]
  have hff : s * f * (1 / f) = s := by field_simp
  simp only [zoomAt]
  rw [hff]
  have hc2 : ¬(s < MIN_SCALE ∨ s > MAX_SCALE) := by
    simp only [not_or, not_lt]; exact ⟨h1, h2⟩
  rw [if_neg hc2]
  simp only [Transform.mk.injEq]
  refine ⟨trivial, ?_, ?_⟩ <;> · field_simp; ring

/-- Witness for `c9_zoom_roundtrip`: scale 1, offset (3, 4), anchor
(10, 20), factor 2. -/
theorem c9_zoom_roundtrip_witness :
    zoomAt (zoomAt ⟨1, 3, 4⟩ 10 20 2) 10 20 (1 / 2) = ⟨1, 3, 4⟩ :=
  c9_zoom_roundtrip ⟨1, 3, 4⟩ 10 20 2 (by norm_num [MIN_SCALE])
    (by norm_num [MAX_SCALE]) (by norm_num [MIN_SCALE]) (by norm_num [MAX_SCALE])

/-! ## Claim C10 -/

/-- C10: a pointer-down whose button is not the primary button is ignored
entirely — the whole editor state (gesture flags, recorded point, canvas,
history, transform) is unchanged. -/
theorem c10_nonprimary_button_ignored (cov : Coverage) (s : EditorState)
    (cx cy : ℚ) (b : ℕ) (hb : b ≠ 0) :
    handlePointerDown cov s cx cy b = s := by
  simp [handlePointerDown, hb]

/-- Witness for `c10_nonprimary_button_ignored`: button 2 (right button) on
the freshly mounted editor. -/
theorem c10_nonprimary_button_witness :
    handlePointerDown covOne (initState 0 0 400 400) 7 9 2 = initState 0 0 400 400 :=
  c10_nonprimary_button_ignored covOne (initState 0 0 400 400) 7 9 2 (by decide)

/-! ## Claim C7 -/

/-- C7: undo at cursor 0 and redo at the last entry are complete no-ops
(nothing throws, history and live bitmap are untouched), and the boundary
is surfaced exactly by `canUndo = cursor > 0` and
`canRedo = cursor < entries.length - 1`. -/
theorem c7_history_boundary_noop (s : EditorState) :
    (canUndo s = false → handleUndo s = s) ∧
    (canRedo s = false → handleRedo s = s) ∧
    (canUndo s = true ↔ s.histIndex > 0) ∧
    (canRedo s = true ↔ s.histIndex < (s.histStack.length : ℤ) - 1) := by
  refine ⟨?_, ?_, ?_, ?_⟩
  · intro h
    simp only [canUndo, decide_eq_false_iff_not] at h
    simp [handleUndo, h]
  · intro h
    simp only [canRedo, decide_eq_false_iff_not] at h
    simp [handleRedo, h]
  · simp [canUndo]
  · simp [canRedo]

/-- A freshly loaded 1×1 editor: one history entry, cursor 0 — both
boundaries at once. -/
def loadedTiny : EditorState := loadImage (initState 0 0 4 4) 1 1

/-- Witness for `c7_history_boundary_noop`: on the freshly loaded editor
both `undo` and `redo` are no-ops. -/
theorem c7_history_boundary_witness :
    handleUndo loadedTiny = loadedTiny ∧ handleRedo loadedTiny = loadedTiny :=
  ⟨(c7_history_boundary_noop loadedTiny).1 (by simp [canUndo, loadedTiny, loadImage, resetView, initState]),
   (c7_history_boundary_noop loadedTiny).2.1 (by simp [canRedo, loadedTiny, loadImage, resetView, initState])⟩

/-! ## Claim C8 -/

/-- Applying `List.mapIdx` with a function that fixes the clear pixel leaves a list
of clear pixels unchanged. -/
theorem mapIdx_fixes_clear (g : ℕ → Pixel → Pixel) (hg : ∀ i, g i Pixel.clearPx = Pixel.clearPx) :
    ∀ data : List Pixel, (∀ px ∈ data, px = Pixel.clearPx) → List.mapIdx g data = data := by
  intro data
  induction data generalizing g with
  | nil => intro _; rfl
  | cons a l ih =>
      intro h
      have ha : a = Pixel.clearPx := h a (by simp)
      rw [List.mapIdx_cons]
      rw [ha, hg 0]
      rw [ih (fun i => g (i + 1)) (fun i => hg (i + 1)) (fun px hpx => h px (by simp [hpx]))]

/-- C8: erase-mode compositing subtracts coverage at full source alpha
independently of the configured brush opacity (full coverage removes the
pixel completely), and erasing over fully transparent pixels leaves them
unchanged — for a whole stroke as well as per pixel. -/
theorem c8_erase_binary (o o2 c : ℚ) (d : Pixel) (cov : Coverage) (args : StrokeCall)
    (data : List Pixel) :
    compositePixel true o c d = compositePixel true o2 c d ∧
    compositePixel true o 1 d = Pixel.clearPx ∧
    compositePixel true o c Pixel.clearPx = Pixel.clearPx ∧
    (args.isErasing = true → (∀ px ∈ data, px = Pixel.clearPx) →
      strokeData cov args data = data) := by
  refine ⟨rfl, ?_, ?_, ?_⟩
  · simp [compositePixel, destOut, srcPixel, Pixel.clearPx]
  · simp [compositePixel, destOut, srcPixel, Pixel.clearPx]
  · intro hE hdata
    unfold strokeData
    rw [hE]
    exact mapIdx_fixes_clear _ (fun i => by simp [compositePixel, destOut, srcPixel, Pixel.clearPx]) data hdata

/-- An erase-mode stroke call (brush opacity 0.5 is configured but must be
irrelevant). -/
def eraseArgs : StrokeCall :=
  { shapeCircle := true, lineWidth := 40, isErasing := true, opacity := 1/2
    x1 := 0, y1 := 0, x2 := 1, y2 := 1 }

/-- Witness for `c8_erase_binary`: a full-coverage erase stroke over a
single transparent pixel leaves it unchanged. -/
theorem c8_erase_binary_witness :
    strokeData covOne eraseArgs [Pixel.clearPx] = [Pixel.clearPx] :=
  (c8_erase_binary (1/2) (1/3) 1 Pixel.clearPx covOne eraseArgs [Pixel.clearPx]).2.2.2
    rfl (by simp)

/-! ## Claim C2 -/

/-- An editor state captured mid-stroke on a 1×1 canvas: the pointer is
down and painting (drawing flag set), one committed stroke is in the
history after the blank snapshot, and the cursor sits on it. -/
def midStrokeSt : EditorState :=
  { isDrawing := true
    isPanning := false
    lastPoint := some (5, 5)
    histStack := [[Pixel.clearPx], [⟨1, 0, 0, 1⟩]]
    histIndex := 1
    canvasW := 1
    canvasH := 1
    canvasData := [⟨1, 0, 0, 1⟩]
    transform := ⟨1, 0, 0⟩
    brushSize := 40
    isErasing := false
    brushShapeCircle := true
    brushOpacity := 1/2
    rectLeft := 0
    rectTop := 0
    containerW := 400
    containerH := 400 }

/-- C2, counterexample: with a stroke in progress (drawing flag set) the
undo shortcut is *not* ignored — it moves the history cursor back and
replaces the live bitmap. -/
theorem c2_counterexample :
    midStrokeSt.isDrawing = true ∧
    (handleKeyDown midStrokeSt "z" true).histIndex ≠ midStrokeSt.histIndex ∧
    (handleKeyDown midStrokeSt "z" true).canvasData ≠ midStrokeSt.canvasData := by
  refine ⟨rfl, ?_, ?_⟩ <;>
    simp [handleKeyDown, handleUndo, midStrokeSt, Pixel.clearPx]

/-- The handler `handleUndo` reads and writes only the history cursor and the canvas
bitmap, so it commutes with overwriting the gesture flags. -/
theorem handleUndo_flags (s : EditorState) (d p : Bool) :
    handleUndo { s with isDrawing := d, isPanning := p }
      = { handleUndo s with isDrawing := d, isPanning := p } := by
  unfold handleUndo
  by_cases h : (0 : ℤ) < s.histIndex <;> simp [h]

/-- The handler `handleRedo` likewise commutes with overwriting the gesture flags. -/
theorem handleRedo_flags (s : EditorState) (d p : Bool) :
    handleRedo { s with isDrawing := d, isPanning := p }
      = { handleRedo s with isDrawing := d, isPanning := p } := by
  unfold handleRedo
  by_cases h : s.histIndex < (s.histStack.length : ℤ) - 1 <;> simp [h]

/-- C2, amended: the undo/redo shortcuts invoke undo/redo regardless of
the drawing and panning flags — their effect on history and bitmap is that
of plain `handleUndo`/`handleRedo`, whatever gesture is in progress; they
are no-ops only at the history boundaries. -/
theorem c2_shortcuts_act_in_any_gesture_state (s : EditorState) (d p : Bool) :
    handleKeyDown { s with isDrawing := d, isPanning := p } "z" true
      = { handleUndo s with isDrawing := d, isPanning := p } ∧
    handleKeyDown { s with isDrawing := d, isPanning := p } "y" true
      = { handleRedo s with isDrawing := d, isPanning := p } := by
  constructor
  · have h1 : handleKeyDown { s with isDrawing := d, isPanning := p } "z" true
        = handleUndo { s with isDrawing := d, isPanning := p } := by
      simp [handleKeyDown]
    rw [h1, handleUndo_flags]
  · have h1 : handleKeyDown { s with isDrawing := d, isPanning := p } "y" true
        = handleRedo { s with isDrawing := d, isPanning := p } := by
      simp [handleKeyDown]
    rw [h1, handleRedo_flags]

/-! ## Claim C3 -/

/-- C3, counterexample: pressing space mid-stroke is not a no-op — the
editor enters panning (the flag flips), and the next pointer move pans the
viewport and paints nothing, although the same move without the space
press would have painted. -/
theorem c3_counterexample :
    (handleKeyDown midStrokeSt " " false).isPanning = true ∧
    (handlePointerMove covOne (handleKeyDown midStrokeSt " " false) 7 9).canvasData
      = midStrokeSt.canvasData ∧
    (handlePointerMove covOne (handleKeyDown midStrokeSt " " false) 7 9).transform
      ≠ midStrokeSt.transform ∧
    (handlePointerMove covOne midStrokeSt 7 9).canvasData ≠ midStrokeSt.canvasData := by
  refine ⟨?_, ?_, ?_, ?_⟩ <;>
    norm_num [handleKeyDown, handlePointerMove, drawLine, strokeData, getTransformedPoint,
      compositePixel, sourceOver, srcPixel, covOne, midStrokeSt, Transform.mk.injEq]

/-- C3, amended: pressing the pan-modifier key mid-stroke sets the panning
flag (the in-progress stroke does not take precedence), and subsequent
pointer moves pan the viewport from the last recorded point instead of
painting segments. -/
theorem c3_pan_key_enters_panning_mid_stroke (s : EditorState) (cov : Coverage) (ctrl : Bool)
    (cx cy : ℚ) (lp : ℚ × ℚ)
    (hd : s.isDrawing = true) (hp : s.isPanning = false) (hl : s.lastPoint = some lp) :
    handleKeyDown s " " ctrl = { s with isPanning := true } ∧
    handlePointerMove cov (handleKeyDown s " " ctrl) cx cy =
      { s with
        isPanning := true
        transform := { s.transform with
          offsetX := s.transform.offsetX + (cx - lp.1)
          offsetY := s.transform.offsetY + (cy - lp.2) }
        lastPoint := some (cx, cy) } := by
  have hk : handleKeyDown s " " ctrl = { s with isPanning := true } := by
    simp [handleKeyDown, hp]
  refine ⟨hk, ?_⟩
  rw [hk]
  simp [handlePointerMove, hl]

/-- Witness for `c3_pan_key_enters_panning_mid_stroke` at the concrete
mid-stroke state. -/
theorem c3_pan_key_witness :
    handleKeyDown midStrokeSt " " false = { midStrokeSt with isPanning := true } ∧
    handlePointerMove covOne (handleKeyDown midStrokeSt " " false) 7 9 =
      { midStrokeSt with
        isPanning := true
        transform := { midStrokeSt.transform with
          offsetX := midStrokeSt.transform.offsetX + (7 - (5, 5).1)
          offsetY := midStrokeSt.transform.offsetY + (9 - (5, 5).2) }
        lastPoint := some (7, 9) } :=
  c3_pan_key_enters_panning_mid_stroke midStrokeSt covOne false 7 9 (5, 5) rfl rfl rfl

/-! ## Claim C4 -/

/-- No event handler ever changes the canvas' pixel dimensions: only the
image-load effect sizes the canvas. -/
theorem step_canvas_dims (cov : Coverage) (s : EditorState) (e : Event) :
    (step cov s e).canvasW = s.canvasW ∧ (step cov s e).canvasH = s.canvasH := by
  cases e <;>
    simp only [step, handlePointerDown, handlePointerMove, handlePointerUp, handleWheel,
      handleKeyDown, handleKeyUp, handleClear, handleUndo, handleRedo, saveHistory,
      drawLine, getTransformedPoint] <;>
    (repeat' split) <;> simp

/-- Canvas dimensions are invariant under any run of events. -/
theorem run_canvas_dims (cov : Coverage) (evs : List Event) : ∀ s : EditorState,
    (run cov s evs).canvasW = s.canvasW ∧ (run cov s evs).canvasH = s.canvasH := by
  induction evs with
  | nil => intro s; exact ⟨rfl, rfl⟩
  | cons e t ih =>
      intro s
      have h := step_canvas_dims cov s e
      have h2 := ih (step cov s e)
      simp only [run, List.foldl_cons] at h2 ⊢
      exact ⟨h2.1.trans h.1, h2.2.trans h.2⟩

/-- The load effect `loadImage` sizes the canvas to the image's natural dimensions. -/
theorem loadImage_dims (s : EditorState) (natW natH : ℕ) :
    (loadImage s natW natH).canvasW = natW ∧ (loadImage s natW natH).canvasH = natH := by
  unfold loadImage resetView
  split <;> simp

/-- C4, counterexample: invoking save on the freshly mounted editor, before
any image has loaded, does not fail — there is no `NotLoadedError` path; it
exports the default 300×150 blank canvas. -/
theorem c4_counterexample :
    handleSave (initState 0 0 400 400) = some ⟨300, 150, blankData 300 150⟩ := rfl

/-- C4, amended: `handleSave` never fails; before a load it exports the
default-sized canvas, and after a load it succeeds and exports a raster
whose pixel dimensions equal the source image's native dimensions, whatever
events (zoom, pan, strokes, history operations) happened since. -/
theorem c4_export_dims_after_load (cov : Coverage) (s : EditorState) (natW natH : ℕ)
    (evs : List Event) :
    ∃ d : List Pixel,
      handleSave (run cov (loadImage s natW natH) evs) = some ⟨natW, natH, d⟩ := by
  refine ⟨(run cov (loadImage s natW natH) evs).canvasData, ?_⟩
  have h := run_canvas_dims cov evs (loadImage s natW natH)
  have hl := loadImage_dims s natW natH
  simp only [handleSave, Option.some.injEq, ExportedMask.mk.injEq]
  exact ⟨h.1.trans hl.1, h.2.trans hl.2, trivial⟩

/-! ## Gestures: committed strokes and clears (for claims C5 and C6) -/

/-- Fold a list of pointer-move positions through `handlePointerMove`. -/
def runMoves (cov : Coverage) (mvs : List (ℚ × ℚ)) (s : EditorState) : EditorState :=
  mvs.foldl (fun st m => handlePointerMove cov st m.1 m.2) s

/-- One full primary-button stroke: pointer down at `dn`, a sequence of
moves, pointer up (which commits the snapshot). -/
def drawGesture (cov : Coverage) (dn : ℚ × ℚ) (mvs : List (ℚ × ℚ))
    (s : EditorState) : EditorState :=
  handlePointerUp (runMoves cov mvs (handlePointerDown cov s dn.1 dn.2 0))

/-- A committed gesture: a stroke or a clear. -/
inductive Gesture where
  | paint (dn : ℚ × ℚ) (mvs : List (ℚ × ℚ))
  | wipe
deriving Repr

/-- Apply one committed gesture to the editor. -/
def applyGesture (cov : Coverage) (s : EditorState) : Gesture → EditorState
  | Gesture.paint dn mvs => drawGesture cov dn mvs s
  | Gesture.wipe => handleClear s

/-- Iterate `handleUndo`. -/
def undoN : ℕ → EditorState → EditorState
  | 0, s => s
  | n + 1, s => undoN n (handleUndo s)

/-- A pointer move never touches the history, and outside panning it also
keeps the pan/draw flags. -/
theorem move_preserves (cov : Coverage) (s : EditorState) (cx cy : ℚ)
    (hp : s.isPanning = false) :
    (handlePointerMove cov s cx cy).isPanning = false ∧
    (handlePointerMove cov s cx cy).isDrawing = s.isDrawing ∧
    (handlePointerMove cov s cx cy).histStack = s.histStack ∧
    (handlePointerMove cov s cx cy).histIndex = s.histIndex := by
  unfold handlePointerMove
  rw [hp]
  cases hL : s.lastPoint <;> cases hD : s.isDrawing <;>
    simp [hD, hL, drawLine, hp]

/-- Lemma `move_preserves`, folded over a list of moves. -/
theorem runMoves_preserves (cov : Coverage) (mvs : List (ℚ × ℚ)) :
    ∀ s : EditorState, s.isPanning = false →
    (runMoves cov mvs s).isPanning = false ∧
    (runMoves cov mvs s).isDrawing = s.isDrawing ∧
    (runMoves cov mvs s).histStack = s.histStack ∧
    (runMoves cov mvs s).histIndex = s.histIndex := by
  induction mvs with
  | nil => intro s hp; exact ⟨hp, rfl, rfl, rfl⟩
  | cons m t ih =>
      intro s hp
      have h1 := move_preserves cov s m.1 m.2 hp
      have h2 := ih (handlePointerMove cov s m.1 m.2) h1.1
      simp only [runMoves, List.foldl_cons] at h2 ⊢
      exact ⟨h2.1, h2.2.1.trans h1.2.1, h2.2.2.1.trans h1.2.2.1, h2.2.2.2.trans h1.2.2.2⟩

/-- A primary-button pointer down outside panning enters drawing and leaves
the history untouched. -/
theorem down_preserves (cov : Coverage) (s : EditorState) (cx cy : ℚ)
    (hp : s.isPanning = false) :
    (handlePointerDown cov s cx cy 0).isPanning = false ∧
    (handlePointerDown cov s cx cy 0).isDrawing = true ∧
    (handlePointerDown cov s cx cy 0).histStack = s.histStack ∧
    (handlePointerDown cov s cx cy 0).histIndex = s.histIndex := by
  simp [handlePointerDown, hp, drawLine]

/-- Pointer up with a stroke in progress commits exactly one snapshot. -/
theorem up_commits (s : EditorState) (hd : s.isDrawing = true) :
    handlePointerUp s = { saveHistory s with isDrawing := false, lastPoint := none } := by
  simp [handlePointerUp, hd]

/-- A full stroke truncates at the cursor, appends one snapshot, moves the
cursor onto it, and ends outside any gesture. -/
theorem drawGesture_spec (cov : Coverage) (dn : ℚ × ℚ) (mvs : List (ℚ × ℚ))
    (s : EditorState) (hp : s.isPanning = false) :
    ∃ d : List Pixel,
      (drawGesture cov dn mvs s).histStack
          = s.histStack.take (s.histIndex + 1).toNat ++ [d] ∧
      (drawGesture cov dn mvs s).histIndex
          = ((s.histStack.take (s.histIndex + 1).toNat).length : ℤ) ∧
      (drawGesture cov dn mvs s).isPanning = false ∧
      (drawGesture cov dn mvs s).isDrawing = false := by
  have h1 := down_preserves cov s dn.1 dn.2 hp
  have h2 := runMoves_preserves cov mvs (handlePointerDown cov s dn.1 dn.2 0) h1.1
  refine ⟨(runMoves cov mvs (handlePointerDown cov s dn.1 dn.2 0)).canvasData, ?_, ?_, ?_, ?_⟩ <;>
    unfold drawGesture <;>
    rw [up_commits _ (h2.2.1.trans h1.2.1)] <;>
    simp [saveHistory, h2.1, h2.2.2.1, h1.2.2.1, h2.2.2.2, h1.2.2.2]

/-- The handler `handleClear` has the same history effect as a stroke, appending the
blank bitmap. -/
theorem handleClear_spec (s : EditorState) :
    (handleClear s).histStack
        = s.histStack.take (s.histIndex + 1).toNat ++ [blankData s.canvasW s.canvasH] ∧
    (handleClear s).histIndex
        = ((s.histStack.take (s.histIndex + 1).toNat).length : ℤ) ∧
    (handleClear s).isPanning = s.isPanning := by
  refine ⟨rfl, ?_, rfl⟩
  simp [handleClear, saveHistory]

/-- One committed gesture from a clean state (cursor on the last of `n + 1`
entries, no pan in progress) appends exactly one entry, advances the
cursor onto it, and keeps the first entry. -/
theorem gesture_advances (cov : Coverage) (g : Gesture) (s : EditorState) (n : ℕ)
    (b : List Pixel) (hp : s.isPanning = false) (hidx : s.histIndex = (n : ℤ))
    (hlen : s.histStack.length = n + 1) (h0 : s.histStack.get? 0 = some b) :
    (applyGesture cov s g).isPanning = false ∧
    (applyGesture cov s g).histIndex = ((n + 1 : ℕ) : ℤ) ∧
    (applyGesture cov s g).histStack.length = (n + 1) + 1 ∧
    (applyGesture cov s g).histStack.get? 0 = some b := by
  have htake : s.histStack.take (s.histIndex + 1).toNat = s.histStack := by
    rw [hidx]
    have ht : ((n : ℤ) + 1).toNat = n + 1 := by omega
    rw [ht, ← hlen]
    exact List.take_length _
  have hpos : 0 < s.histStack.length := by omega
  cases g with
  | paint dn mvs =>
      obtain ⟨d, hst, hidx', hp', _⟩ := drawGesture_spec cov dn mvs s hp
      simp only [applyGesture]
      refine ⟨hp', ?_, ?_, ?_⟩
      · rw [hidx', htake, hlen]
      · rw [hst, htake]; simp [hlen]
      · rw [hst, htake, List.get?_append hpos]; exact h0
  | wipe =>
      obtain ⟨hst, hidx', hp'⟩ := handleClear_spec s
      simp only [applyGesture]
      refine ⟨hp'.trans hp, ?_, ?_, ?_⟩
      · rw [hidx', htake, hlen]
      · rw [hst, htake]; simp [hlen]
      · rw [hst, htake, List.get?_append hpos]; exact h0

/-- Lemma `gesture_advances`, folded over a list of committed gestures. -/
theorem gestures_advance (cov : Coverage) (gs : List Gesture) :
    ∀ (s : EditorState) (n : ℕ) (b : List Pixel),
    s.isPanning = false → s.histIndex = (n : ℤ) → s.histStack.length = n + 1 →
    s.histStack.get? 0 = some b →
    (gs.foldl (applyGesture cov) s).isPanning = false ∧
    (gs.foldl (applyGesture cov) s).histIndex = ((n + gs.length : ℕ) : ℤ) ∧
    (gs.foldl (applyGesture cov) s).histStack.length = (n + gs.length) + 1 ∧
    (gs.foldl (applyGesture cov) s).histStack.get? 0 = some b := by
  induction gs with
  | nil =>
      intro s n b hp hi hl h0
      exact ⟨hp, hi, hl, h0⟩
  | cons g t ih =>
      intro s n b hp hi hl h0
      have h := gesture_advances cov g s n b hp hi hl h0
      have h2 := ih (applyGesture cov s g) (n + 1) b h.1 h.2.1 h.2.2.1 h.2.2.2
      simp only [List.foldl_cons, List.length_cons]
      refine ⟨h2.1, ?_, ?_, h2.2.2.2⟩
      · rw [h2.2.1]; push_cast; ring
      · rw [h2.2.2.1]; omega

/-- Performing `n` undos from cursor `n` land the live bitmap on the first entry. -/
theorem undoN_restores (n : ℕ) : ∀ (s : EditorState) (b : List Pixel),
    s.histIndex = (n : ℤ) → s.histStack.get? 0 = some b →
    (undoN n s).canvasData = if n = 0 then s.canvasData else b := by
  induction n with
  | zero => intro s b _ _; rfl
  | succ n ih =>
      intro s b hi h0
      have hpos : (0 : ℤ) < s.histIndex := by omega
      have hu : handleUndo s
          = { s with
              histIndex := s.histIndex - 1
              canvasData := s.histStack.getD (s.histIndex - 1).toNat s.canvasData } := by
        simp [handleUndo, hpos]
      have hidx' : (handleUndo s).histIndex = (n : ℤ) := by rw [hu]; simp; omega
      have h0' : (handleUndo s).histStack.get? 0 = some b := by rw [hu]; exact h0
      have hrec := ih (handleUndo s) b hidx' h0'
      show (undoN n (handleUndo s)).canvasData = _
      rw [hrec]
      by_cases hn : n = 0
      · subst hn
        simp only [if_pos rfl]
        rw [if_neg (Nat.succ_ne_zero 0), hu]
        have ht : (s.histIndex - 1).toNat = 0 := by omega
        simp only [ht]
        show s.histStack.getD 0 s.canvasData = b
        rw [show s.histStack.getD 0 s.canvasData = (s.histStack.get? 0).getD s.canvasData from rfl,
          h0]
        rfl
      · rw [if_neg hn, if_neg (by omega : n + 1 ≠ 0)]

/-- The load effect `loadImage` keeps the pan flag, resets the history to the single blank
snapshot, and blanks the canvas. -/
theorem loadImage_proj (s : EditorState) (natW natH : ℕ) :
    (loadImage s natW natH).isPanning = s.isPanning ∧
    (loadImage s natW natH).histIndex = 0 ∧
    (loadImage s natW natH).histStack = [blankData natW natH] ∧
    (loadImage s natW natH).canvasData = blankData natW natH := by
  unfold loadImage resetView
  split <;> simp

/-- Away from the lower boundary, `handleUndo` moves the cursor back one
entry and touches nothing but the cursor and the canvas bitmap. -/
theorem handleUndo_proj (s : EditorState) (hpos : (0 : ℤ) < s.histIndex) :
    (handleUndo s).histIndex = s.histIndex - 1 ∧
    (handleUndo s).histStack = s.histStack ∧
    (handleUndo s).isPanning = s.isPanning := by
  simp [handleUndo, hpos]

/-! ## Claim C5 -/

/-- C5: `saveHistory` truncates the entries strictly after the cursor,
appends the current bitmap as an independent snapshot (later strokes on
the live canvas leave the stored entries untouched), and puts the cursor
on the new last index; consequently after load, draw, draw, undo, draw the
redo branch is discarded and `canRedo` is false. -/
theorem c5_push_truncates_then_no_redo (cov : Coverage) (s : EditorState)
    (x1 y1 x2 y2 rl rt cw ch : ℚ) (natW natH : ℕ)
    (a b2 c : ℚ × ℚ) (ms1 ms2 ms3 : List (ℚ × ℚ)) :
    (saveHistory s).histStack = s.histStack.take (s.histIndex + 1).toNat ++ [s.canvasData] ∧
    (saveHistory s).histIndex = ((saveHistory s).histStack.length : ℤ) - 1 ∧
    (drawLine cov (saveHistory s) x1 y1 x2 y2).histStack = (saveHistory s).histStack ∧
    canRedo (drawGesture cov c ms3 (handleUndo (drawGesture cov b2 ms2
      (drawGesture cov a ms1 (loadImage (initState rl rt cw ch) natW natH))))) = false := by
  refine ⟨rfl, rfl, rfl, ?_⟩
  have hp0 : (loadImage (initState rl rt cw ch) natW natH).isPanning = false :=
    ((loadImage_proj (initState rl rt cw ch) natW natH).1).trans rfl
  have hidx0 : (loadImage (initState rl rt cw ch) natW natH).histIndex = ((0 : ℕ) : ℤ) :=
    (loadImage_proj (initState rl rt cw ch) natW natH).2.1
  have hlen0 : (loadImage (initState rl rt cw ch) natW natH).histStack.length = 0 + 1 := by
    rw [(loadImage_proj (initState rl rt cw ch) natW natH).2.2.1]; rfl
  have h00 : (loadImage (initState rl rt cw ch) natW natH).histStack.get? 0
      = some (blankData natW natH) := by
    rw [(loadImage_proj (initState rl rt cw ch) natW natH).2.2.1]; rfl
  have hA := gesture_advances cov (Gesture.paint a ms1)
    (loadImage (initState rl rt cw ch) natW natH) 0 (blankData natW natH) hp0 hidx0 hlen0 h00
  simp only [applyGesture] at hA
  have hB := gesture_advances cov (Gesture.paint b2 ms2)
    (drawGesture cov a ms1 (loadImage (initState rl rt cw ch) natW natH)) 1
    (blankData natW natH) hA.1 hA.2.1 hA.2.2.1 hA.2.2.2
  simp only [applyGesture] at hB
  have hpos2 : (0 : ℤ) < (drawGesture cov b2 ms2 (drawGesture cov a ms1
      (loadImage (initState rl rt cw ch) natW natH))).histIndex := by
    rw [hB.2.1]; norm_num
  obtain ⟨hidx3, hst3, hp3⟩ := handleUndo_proj _ hpos2
  obtain ⟨d4, hst4, hidx4, -, -⟩ := drawGesture_spec cov c ms3
    (handleUndo (drawGesture cov b2 ms2 (drawGesture cov a ms1
      (loadImage (initState rl rt cw ch) natW natH))))
    (hp3.trans hB.1)
  simp only [canRedo]
  rw [hidx4, hst4]
  simp only [List.length_append, List.length_singleton]
  rw [decide_eq_false_iff_not]
  push_cast
  omega

/-! ## Claim C6 -/

/-- C6: after a load, any sequence of `N` committed draw/clear gestures
followed by `N` undos restores the live bitmap byte-for-byte to the blank
snapshot recorded at load. -/
theorem c6_n_undos_restore_blank (cov : Coverage) (rl rt cw ch : ℚ) (natW natH : ℕ)
    (gs : List Gesture) :
    (undoN gs.length
        (gs.foldl (applyGesture cov) (loadImage (initState rl rt cw ch) natW natH))).canvasData
      = blankData natW natH := by
  have hp0 : (loadImage (initState rl rt cw ch) natW natH).isPanning = false :=
    ((loadImage_proj (initState rl rt cw ch) natW natH).1).trans rfl
  have hidx0 : (loadImage (initState rl rt cw ch) natW natH).histIndex = ((0 : ℕ) : ℤ) :=
    (loadImage_proj (initState rl rt cw ch) natW natH).2.1
  have hlen0 : (loadImage (initState rl rt cw ch) natW natH).histStack.length = 0 + 1 := by
    rw [(loadImage_proj (initState rl rt cw ch) natW natH).2.2.1]; rfl
  have h00 : (loadImage (initState rl rt cw ch) natW natH).histStack.get? 0
      = some (blankData natW natH) := by
    rw [(loadImage_proj (initState rl rt cw ch) natW natH).2.2.1]; rfl
  have hF := gestures_advance cov gs (loadImage (initState rl rt cw ch) natW natH) 0
    (blankData natW natH) hp0 hidx0 hlen0 h00
  have hidxF : (gs.foldl (applyGesture cov)
      (loadImage (initState rl rt cw ch) natW natH)).histIndex = ((gs.length : ℕ) : ℤ) := by
    rw [hF.2.1]; norm_num
  have hU := undoN_restores gs.length
    (gs.foldl (applyGesture cov) (loadImage (initState rl rt cw ch) natW natH))
    (blankData natW natH) hidxF hF.2.2.2
  rw [hU]
  by_cases hn : gs.length = 0
  · rw [if_pos hn]
    have hnil : gs = [] := List.length_eq_zero.mp hn
    subst hnil
    exact (loadImage_proj (initState rl rt cw ch) natW natH).2.2.2
  · rw [if_neg hn]

end MaskingCanvas
